import Mathlib

/-!
Verification development for the rudder-package plugin manager
(relay/sources/rudder-package). The definitions below are a shallow
embedding of the Rust sources: versions.rs (version model), archive.rs
(rpkg container and install lifecycle) and lib.rs (batch actions and
process-wide constants). External library behaviour (ar container
scanning, xz and tar decoding, serde JSON parsing, the filesystem and
child processes) is represented by explicit data and outcome flags on
the inputs; the repository code that drives those libraries is
translated function by function.
-/

namespace RudderPackage

/-- Outcome of a fallible Rust computation: a value, an error returned to
the caller (anyhow Result Err), or a process abort through unwrap or a
panicking conversion. -/
inductive Res (α : Type) where
  | ok (a : α)
  | err
  | panicked
deriving DecidableEq, Repr

/-! ## Version model: versions.rs -/

/-- Translated from versions.rs, enum RudderVersionMode. -/
inductive RudderVersionMode where
  | alpha (version : Nat)
  | beta (version : Nat)
  | rc (version : Nat)
  | final
deriving DecidableEq, Repr

/-- Translated from versions.rs, struct RudderVersion. Fields are u32 in
the source; values are Nat here and the parser enforces the u32 bound. -/
structure RudderVersion where
  major : Nat
  minor : Nat
  patch : Nat
  mode : RudderVersionMode
deriving DecidableEq, Repr

/-- Translated from versions.rs, struct PluginVersion. -/
structure PluginVersion where
  major : Nat
  minor : Nat
  nightly : Bool
deriving DecidableEq, Repr

/-- Translated from versions.rs, struct ArchiveVersion. -/
structure ArchiveVersion where
  rudderVersion : RudderVersion
  pluginVersion : PluginVersion
deriving DecidableEq, Repr

/-- First value outside the u32 range: Rust str::parse into u32 fails at
this bound. -/
def u32Bound : Nat := 4294967296

/-- Numeric value of a run of ASCII decimal digits, as computed by
str::parse on the digit run captured by a regex group. -/
def natOfDigits (ds : List Char) : Nat :=
  ds.foldl (fun a c => 10 * a + (c.toNat - 48)) 0

/-- Rust str::parse into u32 applied to a captured nonempty digit run:
fails on the empty run (never produced by the regexes) and on overflow. -/
def parseU32 (ds : List Char) : Option Nat :=
  if ds.isEmpty then none
  else if natOfDigits ds < u32Bound then some (natOfDigits ds) else none

/-- Strips the literal marker from the front of the character list;
none when the list does not start with the marker. -/
def dropPre : List Char → List Char → Option (List Char)
  | [], s => some s
  | _ :: _, [] => none
  | p :: ps, c :: cs => if c = p then dropPre ps cs else none

/-- One prerelease-marker test of RudderVersionMode::from_str: the regex
has the shape start-anchor, marker, one or more digits, then anything,
so it matches exactly when the string starts with the marker followed by
at least one digit; the captured group is the maximal digit run. -/
def tryMode (marker : String) (s : List Char) : Option (List Char) :=
  match dropPre marker.toList s with
  | none => none
  | some r =>
    let ds := r.takeWhile Char.isDigit
    if ds.isEmpty then none else some ds

/-- Translated from versions.rs, RudderVersionMode::from_str. The four
marker regexes are tested in order alpha, beta, rc, git; the captured
ordinal of alpha, beta and rc is parsed with unwrap, so an ordinal
outside u32 aborts; the git ordinal is never parsed. An empty mode
string is a plain release. -/
def rudderVersionModeFromStr (s : List Char) : Res RudderVersionMode :=
  if s.isEmpty then Res.ok RudderVersionMode.final
  else
    match tryMode "~alpha" s with
    | some ds =>
      if natOfDigits ds < u32Bound then Res.ok (RudderVersionMode.alpha (natOfDigits ds))
      else Res.panicked
    | none =>
      match tryMode "~beta" s with
      | some ds =>
        if natOfDigits ds < u32Bound then Res.ok (RudderVersionMode.beta (natOfDigits ds))
        else Res.panicked
      | none =>
        match tryMode "~rc" s with
        | some ds =>
          if natOfDigits ds < u32Bound then Res.ok (RudderVersionMode.rc (natOfDigits ds))
          else Res.panicked
        | none =>
          match tryMode "~git" s with
          | some _ => Res.ok RudderVersionMode.final
          | none => Res.err

/-- Decomposition performed by the anchored regex of
RudderVersion::from_str: three maximal digit runs separated by literal
dots, the remainder being the mode capture. The mode capture is a
dot-star up to the end anchor, and dot does not match a newline, so a
remainder containing a newline makes the whole regex fail. -/
def splitVersion (s : List Char) :
    Option (List Char × List Char × List Char × List Char) :=
  let d1 := s.takeWhile Char.isDigit
  let r1 := s.dropWhile Char.isDigit
  if d1.isEmpty then none
  else
    match r1 with
    | '.' :: r2 =>
      let d2 := r2.takeWhile Char.isDigit
      let r3 := r2.dropWhile Char.isDigit
      if d2.isEmpty then none
      else
        match r3 with
        | '.' :: r4 =>
          let d3 := r4.takeWhile Char.isDigit
          let rest := r4.dropWhile Char.isDigit
          if d3.isEmpty then none
          else if rest.contains '\n' then none
          else some (d1, d2, d3, rest)
        | _ => none
    | _ => none

/-- Translated from versions.rs, RudderVersion::from_str: match the
anchored triple-plus-mode regex, parse each component into u32 with
error propagation, then parse the mode. -/
def rudderVersionFromStr (s : List Char) : Res RudderVersion :=
  match splitVersion s with
  | none => Res.err
  | some (d1, d2, d3, rest) =>
    match parseU32 d1, parseU32 d2, parseU32 d3 with
    | some a, some b, some c =>
      match rudderVersionModeFromStr rest with
      | Res.ok m => Res.ok ⟨a, b, c, m⟩
      | Res.err => Res.err
      | Res.panicked => Res.panicked
    | _, _, _ => Res.err

/-- Attaches already-parsed numeric components to a mode outcome. -/
def resWithComponents (a b c : Nat) : Res RudderVersionMode → Res RudderVersion
  | Res.ok m => Res.ok ⟨a, b, c, m⟩
  | Res.err => Res.err
  | Res.panicked => Res.panicked

/-- Whether the string starts with the given marker followed by at least
one decimal digit. -/
def startsWithMarkerNum (marker : String) (s : List Char) : Bool :=
  match dropPre marker.toList s with
  | some (c :: _) => c.isDigit
  | _ => false

/-- Spec-side recognizer, relaxed to the anchoring the code implements:
the suffix is empty or begins with one of the four recognized marker
forms, whatever follows the digits. -/
def specSuffixRecognized (s : List Char) : Bool :=
  s.isEmpty || startsWithMarkerNum "~alpha" s || startsWithMarkerNum "~beta" s
    || startsWithMarkerNum "~rc" s || startsWithMarkerNum "~git" s

/-- Whether the string is exactly the given marker followed by one or
more decimal digits and nothing else. -/
def markerAllDigits (marker : String) (s : List Char) : Bool :=
  match dropPre marker.toList s with
  | some r => !r.isEmpty && r.all Char.isDigit
  | none => false

/-- Spec-side recognizer following the words of the claim: a recognized
suffix is empty, or exactly one of tilde-alpha, tilde-beta, tilde-rc or
tilde-git followed by a decimal number. -/
def specExactSuffixForm (s : List Char) : Bool :=
  s.isEmpty || markerAllDigits "~alpha" s || markerAllDigits "~beta" s
    || markerAllDigits "~rc" s || markerAllDigits "~git" s

/-- Translated from versions.rs, impl PartialOrd for PluginVersion:
major, then minor, then the nightly flag, a nightly build ordering
strictly below the release build of the same major.minor. -/
def pluginVersionCmpOpt (p q : PluginVersion) : Option Ordering :=
  if p.major < q.major then some Ordering.lt
  else if p.major > q.major then some Ordering.gt
  else if p.minor < q.minor then some Ordering.lt
  else if p.minor > q.minor then some Ordering.gt
  else if p.nightly && !q.nightly then some Ordering.lt
  else if !p.nightly && q.nightly then some Ordering.gt
  else some Ordering.eq

/-- Modelled from the spec: section 4.2 compatibility predicate.
The function is_compatible lives in versions.rs of the repository but is
not part of the sources provided under src; the spec states that it
compares the major and minor components only, equal major.minor meaning
compatible. -/
def RudderVersion.isCompatible (self other : RudderVersion) : Bool :=
  self.major == other.major && self.minor == other.minor

/-! ## Process-wide constants: lib.rs -/

/-- Translated from lib.rs, constant PACKAGES_FOLDER. -/
def PACKAGES_FOLDER : String := "/var/rudder/packages"

/-! ## Plugin metadata and database

plugin.rs and database.rs are part of the repository but are not among
the sources provided under src; their data shapes are modelled from
their uses in archive.rs and lib.rs together with the spec (sections 3
and 4.3). -/

/-- Modelled from the spec: section 3 Plugin Metadata, with the field
set used by archive.rs (name, version, depends, content, jar_files).
The depends field carries the boolean answer of are_installed, whose
implementation (dependency.rs) is outside the provided sources; the
content mapping is a list of pairs in its iteration order. -/
structure Metadata where
  name : String
  version : ArchiveVersion
  depends : Option Bool
  content : List (String × String)
  jarFiles : Option (List String)
deriving DecidableEq, Repr

/-- Modelled from the spec: section 4.3 Installed Plugin Record, as used
by archive.rs (struct InstalledPlugin with files and metadata). -/
structure InstalledPlugin where
  files : List String
  metadata : Metadata
deriving DecidableEq, Repr

/-- Modelled from the spec: section 4.3 Installed Package Database, as
used by archive.rs and lib.rs (struct Database with a plugins mapping
from plugin name to record). -/
structure Database where
  plugins : List (String × InstalledPlugin)
deriving DecidableEq, Repr

/-- Map insert with replace semantics, as used on Database.plugins by
Rpkg::install (HashMap-style insert overwrites any prior record). -/
def dbInsert (db : Database) (name : String) (p : InstalledPlugin) : Database :=
  ⟨(name, p) :: db.plugins.filter (fun x => x.1 ≠ name)⟩

/-! ## Archive container model: archive.rs -/

/-- One entry of the ar-style rpkg container. The identifier is the
entry name; parsedMeta abstracts the result of the serde JSON parse of
the entry bytes against the Metadata schema (none when the bytes are
not valid JSON for the schema); decodeOk abstracts whether the xz
decompression and tar read of the entry bytes succeed; tarFiles lists
the tar entry paths in tar order for a decodable bundle. -/
structure ArEntry where
  identifier : String
  parsedMeta : Option Metadata
  decodeOk : Bool
  tarFiles : List String
deriving DecidableEq, Repr

/-- Translated from archive.rs, struct Rpkg: the opened container (its
scanned entries stand for the file at the stored path) plus the parsed
metadata. -/
structure Rpkg where
  entries : List ArEntry
  metadata : Metadata
deriving DecidableEq, Repr

/-- Outcome of read_metadata: the two failure kinds carry the distinct
anyhow messages of archive.rs (no metadata found, failed to parse). -/
inductive MetaRes where
  | ok (m : Metadata)
  | errAbsent
  | errParse
deriving DecidableEq, Repr

/-- Translated from archive.rs, fn read_metadata: scan the container
entries in order; at the first entry named metadata, parse it and
return the result (a parse failure propagates as an error); if the scan
ends without such an entry, fail with the no-metadata error. -/
def readMetadata : List ArEntry → MetaRes
  | [] => MetaRes.errAbsent
  | e :: rest =>
    if e.identifier = "metadata" then
      match e.parsedMeta with
      | some m => MetaRes.ok m
      | none => MetaRes.errParse
    else readMetadata rest

/-- Outcome of Rpkg::from_path: either an Rpkg value or a process abort. -/
inductive FromPathRes where
  | ok (m : Metadata)
  | panicked
deriving DecidableEq, Repr

/-- Translated from archive.rs, Rpkg::from_path: builds the Rpkg from
read_metadata(path).unwrap(). The unwrap turns both metadata failure
kinds into a process abort instead of returning them, although the
function signature is a Result. -/
def rpkgFromPath (entries : List ArEntry) : FromPathRes :=
  match readMetadata entries with
  | MetaRes.ok m => FromPathRes.ok m
  | MetaRes.errAbsent => FromPathRes.panicked
  | MetaRes.errParse => FromPathRes.panicked

/-- Whether a character list starts with a pattern list. -/
def listStartsWith : List Char → List Char → Bool
  | _, [] => true
  | [], _ :: _ => false
  | c :: cs, p :: ps => if c = p then listStartsWith cs ps else false

/-- Whether a string starts with a pattern string. -/
def strStartsWith (s pat : String) : Bool :=
  listStartsWith s.data pat.data

/-- Whether a string ends with a pattern string. -/
def strHasSuffix (s pat : String) : Bool :=
  listStartsWith s.data.reverse pat.data.reverse

/-- First-match lookup in an association list with string keys. -/
def assocLookup (key : String) : List (String × String) → Option String
  | [] => none
  | (k, v) :: rest => if k = key then some v else assocLookup key rest

/-- Rust Path::join of a base directory and a further path, on the
string representation: an absolute right operand replaces the base,
otherwise a separator is inserted when needed. -/
def pathJoin (base p : String) : String :=
  if strStartsWith p "/" then p
  else if base = "" then p
  else if strHasSuffix base "/" then base ++ p
  else base ++ "/" ++ p

/-- Translated from archive.rs, Rpkg::get_txz_dst: the scripts bundle
named scripts.txz resolves to the fixed packages folder; every other
name resolves through the metadata content mapping, whose lookup is
unwrapped in the source (none here marks the process abort on an
unmapped name). -/
def getTxzDst (r : Rpkg) (txzName : String) : Option String :=
  if txzName = "scripts.txz" then some PACKAGES_FOLDER
  else assocLookup txzName r.metadata.content

/-- Translated from archive.rs, Rpkg::get_txz_list: the identifiers of
the entries whose name ends in .txz, in container order. -/
def getTxzList (r : Rpkg) : List String :=
  (r.entries.filter (fun e => strHasSuffix e.identifier ".txz")).map (fun e => e.identifier)

/-- Scan loop of Rpkg::get_relative_file_list_of_txz: every entry whose
identifier matches contributes its tar entry paths in order; a
decompression or tar failure propagates immediately as an error. -/
def relFilesScan (txzName : String) : List ArEntry → Res (List String)
  | [] => Res.ok []
  | e :: rest =>
    if e.identifier = txzName then
      if e.decodeOk then
        match relFilesScan txzName rest with
        | Res.ok l => Res.ok (e.tarFiles ++ l)
        | r => r
      else Res.err
    else relFilesScan txzName rest

/-- Translated from archive.rs, Rpkg::get_relative_file_list_of_txz:
scans the whole container, so an absent name yields the empty list
rather than an error. -/
def getRelativeFileListOfTxz (r : Rpkg) (txzName : String) : Res (List String) :=
  relFilesScan txzName r.entries

/-- Translated from archive.rs, Rpkg::get_absolute_file_list_of_txz:
joins the resolved destination with each relative file. -/
def getAbsoluteFileListOfTxz (r : Rpkg) (txzName : String) : Res (List String) :=
  match getTxzDst r txzName with
  | none => Res.panicked
  | some base =>
    match getRelativeFileListOfTxz r txzName with
    | Res.ok l => Res.ok (l.map (pathJoin base))
    | Res.err => Res.err
    | Res.panicked => Res.panicked

/-- Concatenation loop of Rpkg::get_archive_installed_files over the
retained bundle names. -/
def absFilesConcat (r : Rpkg) : List String → Res (List String)
  | [] => Res.ok []
  | n :: rest =>
    match getAbsoluteFileListOfTxz r n with
    | Res.ok l =>
      match absFilesConcat r rest with
      | Res.ok l2 => Res.ok (l ++ l2)
      | x => x
    | Res.err => Res.err
    | Res.panicked => Res.panicked

/-- Translated from archive.rs, Rpkg::get_archive_installed_files: every
bundle of the container except scripts.txz contributes its absolute file
list, concatenated in container order. -/
def getArchiveInstalledFiles (r : Rpkg) : Res (List String) :=
  absFilesConcat r ((getTxzList r).filter (fun n => n ≠ "scripts.txz"))

/-! ## Side effects of the lifecycle

Install and uninstall act on the filesystem, the database file and
child processes. Each observable action is recorded as one event; a
run of an operation returns its outcome together with the list of
events it performed, in order. Nothing in the lifecycle emits a
compensating event: whatever is in the list has been done and stays
done. -/

/-- One observable action of the lifecycle. -/
inductive Effect where
  | mkdirParent (dst : String)
  | unpacked (txzName dst : String)
  | dbWritten (db : Database)
  | ranScript (path : String) (args : List String) (exitOk : Bool)
  | jarEnabled (path : String)
deriving DecidableEq, Repr

/-- The durable state reached after a list of events: which bundles were
unpacked where, and the last content written to the database file (none
when the file was never written). -/
structure World where
  unpackedDirs : List (String × String)
  writtenDb : Option Database
deriving DecidableEq, Repr

/-- Applies one event to the durable state. -/
def applyEffect (w : World) : Effect → World
  | Effect.mkdirParent _ => w
  | Effect.unpacked n d => { w with unpackedDirs := w.unpackedDirs ++ [(n, d)] }
  | Effect.dbWritten db => { w with writtenDb := some db }
  | Effect.ranScript _ _ _ => w
  | Effect.jarEnabled _ => w

/-- The durable state after a whole event list, starting from an
untouched filesystem and database. -/
def applyEffects (t : List Effect) : World :=
  t.foldl applyEffect ⟨[], none⟩

/-- Translated from archive.rs, Rpkg::unpack_embedded_txz: the container
is scanned for the named entry; the first match has the parent of the
destination created, is decompressed and unpacked there, and the
function returns; a decode failure propagates as an error after the
directory creation; when no entry matches, the scan falls through to a
successful no-op. -/
def unpackEmbeddedTxz (r : Rpkg) (txzName dst : String) : Res Unit × List Effect :=
  match r.entries.find? (fun e => decide (e.identifier = txzName)) with
  | none => (Res.ok (), [])
  | some e =>
    if e.decodeOk then (Res.ok (), [Effect.mkdirParent dst, Effect.unpacked txzName dst])
    else (Res.err, [Effect.mkdirParent dst])

/-- Translated from archive.rs, enum PackageScript. -/
inductive PackageScript where
  | postinst
  | postrm
  | preinst
  | prerm
deriving DecidableEq, Repr

/-- Display form of a package script name, as in archive.rs. -/
def PackageScript.name : PackageScript → String
  | PackageScript.postinst => "postinst"
  | PackageScript.postrm => "postrm"
  | PackageScript.preinst => "preinst"
  | PackageScript.prerm => "prerm"

/-- Translated from archive.rs, enum PackageScriptArg. -/
inductive PackageScriptArg where
  | install
  | upgrade
  | noArg
deriving DecidableEq, Repr

/-- Display form of a script argument, as in archive.rs (the None
variant displays as the empty string). -/
def PackageScriptArg.str : PackageScriptArg → String
  | PackageScriptArg.install => "install"
  | PackageScriptArg.upgrade => "upgrade"
  | PackageScriptArg.noArg => ""

/-- Host behaviour surrounding a lifecycle script, keyed by script name:
whether the script file exists under the package scripts folder, whether
spawning it succeeds, and whether the spawned process exits with status
zero. -/
structure ScriptEnv where
  scriptExists : String → Bool
  spawnOk : String → Bool
  exitSuccess : String → Bool

/-- The fixed script path of run_package_script: the packages folder
joined with the plugin name joined with the script name. -/
def scriptPath (r : Rpkg) (script : PackageScript) : String :=
  pathJoin (pathJoin PACKAGES_FOLDER r.metadata.name) script.name

/-- Translated from archive.rs, Rpkg::run_package_script: a missing
script file is a silent no-op; a spawn failure is a hard error; a
spawned script runs with the single display argument, and a non-zero
exit status is only logged, the function still returning success. -/
def runPackageScript (r : Rpkg) (env : ScriptEnv) (script : PackageScript)
    (arg : PackageScriptArg) : Res Unit × List Effect :=
  if env.scriptExists script.name then
    if env.spawnOk script.name then
      (Res.ok (), [Effect.ranScript (scriptPath r script) [arg.str]
        (env.exitSuccess script.name)])
    else (Res.err, [])
  else (Res.ok (), [])

/-- Sequencing of two effectful steps: the second runs only when the
first succeeds, and the events of a failing run up to the failure are
kept. -/
def withEff (step : Res Unit × List Effect)
    (k : Unit → Res Unit × List Effect) : Res Unit × List Effect :=
  match step with
  | (Res.ok _, t) => ((k ()).1, t ++ (k ()).2)
  | (Res.err, t) => (Res.err, t)
  | (Res.panicked, t) => (Res.panicked, t)

/-! ## Install lifecycle: archive.rs, Rpkg::install -/

/-- Inputs of one install run that come from outside the container: the
force flag, the parsed running host version (none when reading or
parsing the version file fails), the database file content (none when
reading fails), whether the database write succeeds, the script host
behaviour and the jar enabling outcomes. -/
structure InstallEnv where
  rpkg : Rpkg
  force : Bool
  webappVersion : Option RudderVersion
  dbRead : Option Database
  dbWriteOk : Bool
  script : ScriptEnv
  jarOk : String → Bool

/-- Step 3 of Rpkg::install, verbatim: unpack the nested entry named
script.txz into the packages folder. -/
def installScriptsStep (r : Rpkg) : Res Unit × List Effect :=
  unpackEmbeddedTxz r "script.txz" PACKAGES_FOLDER

/-- Content extraction loop of Rpkg::install: for every name in the
metadata content mapping, resolve its destination and unpack it there. -/
def unpackContentList (r : Rpkg) : List (String × String) → Res Unit × List Effect
  | [] => (Res.ok (), [])
  | (txzName, _) :: rest =>
    match getTxzDst r txzName with
    | none => (Res.panicked, [])
    | some dst =>
      withEff (unpackEmbeddedTxz r txzName dst) (fun _ => unpackContentList r rest)

/-- Database update step of Rpkg::install: read the database file,
compute the absolute installed file list, insert the record for this
plugin name and write the database back. -/
def installDbStep (env : InstallEnv) : Res Unit × List Effect :=
  match env.dbRead with
  | none => (Res.err, [])
  | some db =>
    match getArchiveInstalledFiles env.rpkg with
    | Res.ok files =>
      if env.dbWriteOk then
        (Res.ok (), [Effect.dbWritten
          (dbInsert db env.rpkg.metadata.name ⟨files, env.rpkg.metadata⟩)])
      else (Res.err, [])
    | Res.err => (Res.err, [])
    | Res.panicked => (Res.panicked, [])

/-- Jar enabling loop of Rpkg::install: each declared jar is enabled in
turn, a failure propagating as an error. -/
def enableJars (jarOk : String → Bool) : List String → Res Unit × List Effect
  | [] => (Res.ok (), [])
  | j :: rest =>
    if jarOk j then
      withEff (Res.ok (), [Effect.jarEnabled j]) (fun _ => enableJars jarOk rest)
    else (Res.err, [])

/-- Final step of Rpkg::install: enable the declared jars, if any. -/
def installJarsStep (env : InstallEnv) : Res Unit × List Effect :=
  match env.rpkg.metadata.jarFiles with
  | none => (Res.ok (), [])
  | some js => enableJars env.jarOk js

/-- Steps 3 to 8 of Rpkg::install, run after the compatibility and
dependency checks passed. -/
def installAfterChecks (env : InstallEnv) : Res Unit × List Effect :=
  withEff (installScriptsStep env.rpkg) fun _ =>
  withEff (runPackageScript env.rpkg env.script PackageScript.preinst
    PackageScriptArg.install) fun _ =>
  withEff (unpackContentList env.rpkg env.rpkg.metadata.content) fun _ =>
  withEff (installDbStep env) fun _ =>
  withEff (runPackageScript env.rpkg env.script PackageScript.postinst
    PackageScriptArg.install) fun _ =>
  installJarsStep env

/-- Translated from archive.rs, Rpkg::install: read the running host
version, check compatibility unless forced, check dependencies unless
forced, then extract scripts, run preinst, extract the content bundles,
update the database, run postinst and enable jars. -/
def install (env : InstallEnv) : Res Unit × List Effect :=
  match env.webappVersion with
  | none => (Res.err, [])
  | some wv =>
    if !(env.force || env.rpkg.metadata.version.rudderVersion.isCompatible wv) then
      (Res.err, [])
    else
      match env.rpkg.metadata.depends with
      | some areInst =>
        if !(env.force || areInst) then (Res.err, [])
        else installAfterChecks env
      | none => installAfterChecks env

/-! ## Batch uninstall: lib.rs, action::uninstall -/

/-- Modelled from the spec: section 4.4 Uninstall. The implementation
lives in database.rs, which is not among the sources provided under
src; per the spec it fails when the name is not recorded in the
database and otherwise removes the record (file removal and the prerm
and postrm scripts are not needed by the claims and are not modelled). -/
def dbUninstall (db : Database) (name : String) : Option Database :=
  match List.lookup name db.plugins with
  | none => none
  | some _ => some ⟨db.plugins.filter (fun x => x.1 ≠ name)⟩

/-- Translated from lib.rs, action::uninstall: the database is read once
and the package list is processed with try_for_each, which stops at the
first failing name. The result records the names actually attempted in
order, whether the whole batch succeeded, and the final database. -/
def uninstallBatch (db : Database) : List String → List String × Bool × Database
  | [] => ([], true, db)
  | n :: rest =>
    match dbUninstall db n with
    | none => ([n], false, db)
    | some db2 =>
      let r := uninstallBatch db2 rest
      (n :: r.1, r.2)

/-! ## Concrete sample data, shared by the theorems below -/

/-- A release archive version, 8.0.0-2.2. -/
def sampleAv : ArchiveVersion := ⟨⟨8, 0, 0, RudderVersionMode.final⟩, ⟨2, 2, false⟩⟩

/-- Metadata of the notify plugin example with the files.txz bundle
mapped to /opt/rudder/share. -/
def notifyMetaShare : Metadata :=
  { name := "notify", version := sampleAv, depends := none,
    content := [("files.txz", "/opt/rudder/share")], jarFiles := none }

/-- Metadata of the notify plugin example with the files.txz bundle
mapped to /opt/rudder. -/
def notifyMeta : Metadata :=
  { name := "notify", version := sampleAv, depends := none,
    content := [("files.txz", "/opt/rudder")], jarFiles := none }

/-- Container entries of the notify plugin example: a metadata entry, a
files.txz bundle with the four tar entries of the repository test
archive, and a scripts.txz bundle holding a postinst script. -/
def notifyEntries (m : Metadata) : List ArEntry :=
  [ ⟨"metadata", some m, true, []⟩,
    ⟨"files.txz", none, true,
      ["share/", "share/python/", "share/python/glpi.py", "share/python/notifyd.py"]⟩,
    ⟨"scripts.txz", none, true, ["postinst"]⟩ ]

/-- The notify container with content destination /opt/rudder/share. -/
def notifyRpkgShare : Rpkg := ⟨notifyEntries notifyMetaShare, notifyMetaShare⟩

/-- The notify container with content destination /opt/rudder. -/
def notifyRpkg : Rpkg := ⟨notifyEntries notifyMeta, notifyMeta⟩

/-- A metadata entry whose bytes are not valid JSON for the schema. -/
def malformedMetaEntry : ArEntry :=
  { identifier := "metadata", parsedMeta := none, decodeOk := true, tarFiles := [] }

/-- A container holding only a content bundle and no metadata entry. -/
def entriesWithoutMetadata : List ArEntry :=
  [⟨"files.txz", none, true, ["a.txt"]⟩]

/-- A sample installed record used by the uninstall theorems. -/
def recNotify : InstalledPlugin := ⟨["/opt/rudder/share/"], notifyMeta⟩

/-- A database recording only the plugin named b. -/
def dbOnlyB : Database := ⟨[("b", recNotify)]⟩

/-- The absolute installed file list of the notify example with the
content destination /opt/rudder. -/
def expectedNotifyFiles : List String :=
  ["/opt/rudder/share/", "/opt/rudder/share/python/",
   "/opt/rudder/share/python/glpi.py", "/opt/rudder/share/python/notifyd.py"]

/-- A minimal plugin whose container has no bundles at all. -/
def metaEmpty : Metadata :=
  { name := "p", version := sampleAv, depends := none, content := [], jarFiles := none }

/-- The container of the minimal plugin. -/
def rpkgEmpty : Rpkg := ⟨[], metaEmpty⟩

/-- A plugin with two content bundles, the second of which has corrupt
bundle bytes. -/
def metaTwoBundles : Metadata :=
  { name := "p", version := sampleAv, depends := none,
    content := [("a.txz", "/da"), ("b.txz", "/db")], jarFiles := none }

/-- The container of the two-bundle plugin: bundle a.txz decodes, bundle
b.txz does not. -/
def rpkgTwoBundles : Rpkg :=
  ⟨[⟨"a.txz", none, true, ["f1"]⟩, ⟨"b.txz", none, false, []⟩], metaTwoBundles⟩

/-- An install run of the minimal plugin where everything succeeds up to
the postinst script, which exists but fails to spawn. -/
def envPostinstSpawnFails : InstallEnv :=
  { rpkg := rpkgEmpty, force := true,
    webappVersion := some ⟨8, 0, 0, RudderVersionMode.final⟩,
    dbRead := some ⟨[]⟩, dbWriteOk := true,
    script := ⟨fun s => decide (s = "postinst"), fun _ => false, fun _ => true⟩,
    jarOk := fun _ => true }

/-- An install run of the two-bundle plugin with no lifecycle scripts,
where the second bundle extraction fails. -/
def envBundleFails : InstallEnv :=
  { rpkg := rpkgTwoBundles, force := true,
    webappVersion := some ⟨8, 0, 0, RudderVersionMode.final⟩,
    dbRead := some ⟨[]⟩, dbWriteOk := true,
    script := ⟨fun _ => false, fun _ => true, fun _ => true⟩,
    jarOk := fun _ => true }

/-- An install run of the notify plugin against a host whose version
differs from the declared one in major, with force unset. -/
def envIncompatible : InstallEnv :=
  { rpkg := notifyRpkg, force := false,
    webappVersion := some ⟨7, 2, 5, RudderVersionMode.final⟩,
    dbRead := some dbOnlyB, dbWriteOk := true,
    script := ⟨fun _ => true, fun _ => true, fun _ => true⟩,
    jarOk := fun _ => true }

/-- An install run of the notify plugin where the database starts empty
and every host interaction succeeds. -/
def envNotifyOk : InstallEnv :=
  { rpkg := notifyRpkg, force := true,
    webappVersion := some ⟨8, 0, 0, RudderVersionMode.final⟩,
    dbRead := some ⟨[]⟩, dbWriteOk := true,
    script := ⟨fun _ => false, fun _ => true, fun _ => true⟩,
    jarOk := fun _ => true }

/-! ## Claims -/

/-- Sequencing a successful first step keeps its events in front. -/
theorem withEff_ok (t : List Effect) (k : Unit → Res Unit × List Effect) :
    withEff (Res.ok (), t) k = ((k ()).1, t ++ (k ()).2) := rfl

/-- Sequencing stops at a failing first step and keeps its events. -/
theorem withEff_err (t : List Effect) (k : Unit → Res Unit × List Effect) :
    withEff (Res.err, t) k = (Res.err, t) := rfl

/-- After an event list ending in a database write, the durable database
content is that write. -/
theorem applyEffects_last_dbWritten (t : List Effect) (d : Database) :
    (applyEffects (t ++ [Effect.dbWritten d])).writtenDb = some d := by
  unfold applyEffects
  rw [List.foldl_append]
  rfl

/-- C3: a container with no metadata entry and a container whose
metadata entry is not valid JSON for the schema both make read_metadata
fail, with distinguishable error kinds; but Open, that is
Rpkg::from_path, unwraps that result, so on both inputs it aborts the
process instead of returning the metadata error to the caller as the
claim states. -/
theorem claim_C3_metadata_open_aborts :
    readMetadata entriesWithoutMetadata = MetaRes.errAbsent ∧
    readMetadata [malformedMetaEntry] = MetaRes.errParse ∧
    MetaRes.errAbsent ≠ MetaRes.errParse ∧
    rpkgFromPath entriesWithoutMetadata = FromPathRes.panicked ∧
    rpkgFromPath [malformedMetaEntry] = FromPathRes.panicked := by
  decide

/-- C5: plugin version comparison is total, and for equal major.minor
the nightly build orders strictly below the release build while equal
flags compare equal; across differing major or minor the order is the
numeric comparison of major then minor, independent of the nightly
flags. -/
theorem claim_C5_plugin_version_order (p q : PluginVersion) :
    (∃ o, pluginVersionCmpOpt p q = some o) ∧
    (p.major = q.major → p.minor = q.minor →
      ((p.nightly = true → q.nightly = false →
          pluginVersionCmpOpt p q = some Ordering.lt) ∧
       (p.nightly = false → q.nightly = true →
          pluginVersionCmpOpt p q = some Ordering.gt) ∧
       (p.nightly = q.nightly → pluginVersionCmpOpt p q = some Ordering.eq))) ∧
    (p.major ≠ q.major ∨ p.minor ≠ q.minor →
      pluginVersionCmpOpt p q =
        some (if p.major < q.major then Ordering.lt
          else if q.major < p.major then Ordering.gt
          else if p.minor < q.minor then Ordering.lt
          else Ordering.gt)) := by
  obtain ⟨pM, pm, pn⟩ := p
  obtain ⟨qM, qm, qn⟩ := q
  refine ⟨?_, ?_, ?_⟩
  · unfold pluginVersionCmpOpt
    repeat' split
    all_goals exact ⟨_, rfl⟩
  · intro h1 h2
    dsimp only at h1 h2
    subst h1; subst h2
    refine ⟨?_, ?_, ?_⟩
    · intro ha hb
      dsimp only at ha hb
      simp [pluginVersionCmpOpt, ha, hb, Nat.lt_irrefl]
    · intro ha hb
      dsimp only at ha hb
      simp [pluginVersionCmpOpt, ha, hb, Nat.lt_irrefl]
    · intro hab
      dsimp only at hab
      subst hab
      cases pn <;> simp [pluginVersionCmpOpt, Nat.lt_irrefl]
  · intro h
    dsimp only at h ⊢
    rcases Nat.lt_trichotomy pM qM with hM | hM | hM
    · simp [pluginVersionCmpOpt, hM]
    · subst hM
      rcases Nat.lt_trichotomy pm qm with hm | hm | hm
      · simp [pluginVersionCmpOpt, Nat.lt_irrefl, hm]
      · subst hm
        rcases h with h | h <;> exact absurd rfl h
      · simp [pluginVersionCmpOpt, Nat.lt_irrefl, hm, Nat.lt_asymm hm]
    · simp [pluginVersionCmpOpt, hM, Nat.lt_asymm hM]

/-- C5 witness: at 2.3-nightly versus 2.3, the comparison gives strictly
less. -/
theorem claim_C5_plugin_version_order_witness :
    pluginVersionCmpOpt ⟨2, 3, true⟩ ⟨2, 3, false⟩ = some Ordering.lt :=
  ((claim_C5_plugin_version_order ⟨2, 3, true⟩ ⟨2, 3, false⟩).2.1 rfl rfl).1 rfl rfl

/-- The relative-file scan over entries none of which carries the
requested name yields the empty list successfully. -/
theorem relFilesScan_absent (txzName : String) (es : List ArEntry)
    (h : ∀ e ∈ es, e.identifier ≠ txzName) :
    relFilesScan txzName es = Res.ok [] := by
  induction es with
  | nil => rfl
  | cons e rest ih =>
    have he := h e (by simp)
    simp only [relFilesScan, if_neg he]
    exact ih fun x hx => h x (by simp [hx])

/-- C7: when no entry of the container carries the requested nested
archive name, listing its relative files returns the empty list rather
than an error, and extracting it succeeds as a no-op that performs no
filesystem action. -/
theorem claim_C7_absent_bundle (r : Rpkg) (txzName dst : String)
    (h : ∀ e ∈ r.entries, e.identifier ≠ txzName) :
    getRelativeFileListOfTxz r txzName = Res.ok [] ∧
    unpackEmbeddedTxz r txzName dst = (Res.ok (), []) := by
  constructor
  · exact relFilesScan_absent txzName r.entries h
  · have hf : r.entries.find? (fun e => decide (e.identifier = txzName)) = none := by
      rw [List.find?_eq_none]
      intro e he
      simp [h e he]
    simp [unpackEmbeddedTxz, hf]

/-- C7 witness: the notify container holds no entry named absent.txz, so
listing gives the empty list and extraction is an effect-free success. -/
theorem claim_C7_absent_bundle_witness :
    getRelativeFileListOfTxz notifyRpkg "absent.txz" = Res.ok [] ∧
    unpackEmbeddedTxz notifyRpkg "absent.txz" "/tmp/x" = (Res.ok (), []) := by
  have h := claim_C7_absent_bundle notifyRpkg "absent.txz" "/tmp/x" (by decide)
  revert h
  decide

/-- C8: a lifecycle script invocation is a silent no-op when the script
file is missing; a spawn failure is a hard error; and a script that does
spawn is run with exactly one positional argument and the invocation
succeeds regardless of the exit status of the process. -/
theorem claim_C8_script_contract (r : Rpkg) (env : ScriptEnv)
    (script : PackageScript) (arg : PackageScriptArg) :
    (env.scriptExists script.name = false →
      runPackageScript r env script arg = (Res.ok (), [])) ∧
    (env.scriptExists script.name = true → env.spawnOk script.name = false →
      runPackageScript r env script arg = (Res.err, [])) ∧
    (env.scriptExists script.name = true → env.spawnOk script.name = true →
      runPackageScript r env script arg =
        (Res.ok (), [Effect.ranScript (scriptPath r script) [arg.str]
          (env.exitSuccess script.name)])) := by
  refine ⟨?_, ?_, ?_⟩
  · intro h
    simp [runPackageScript, h]
  · intro h1 h2
    simp [runPackageScript, h1, h2]
  · intro h1 h2
    simp [runPackageScript, h1, h2]

/-- C8 witness: for the notify plugin with an existing postinst script
that spawns and exits non-zero, the invocation still succeeds and passes
the single argument install. -/
theorem claim_C8_script_contract_witness :
    runPackageScript notifyRpkg
      ⟨fun _ => true, fun _ => true, fun _ => false⟩
      PackageScript.postinst PackageScriptArg.install =
    (Res.ok (), [Effect.ranScript "/var/rudder/packages/notify/postinst"
      ["install"] false]) := by
  have h := (claim_C8_script_contract notifyRpkg
    ⟨fun _ => true, fun _ => true, fun _ => false⟩
    PackageScript.postinst PackageScriptArg.install).2.2 rfl rfl
  revert h
  decide

/-- C2 counterexample: over the batch a then b against a database that
records only b, the lookup failure for a stops the whole try_for_each,
so b is never attempted and stays recorded; the claim that every name
in the list is attempted independently is false on the code. -/
theorem claim_C2_counterexample :
    uninstallBatch dbOnlyB ["a", "b"] = (["a"], false, dbOnlyB) ∧
    "b" ∉ (uninstallBatch dbOnlyB ["a", "b"]).1 ∧
    ("b", recNotify) ∈ (uninstallBatch dbOnlyB ["a", "b"]).2.2.plugins := by
  decide

/-- C2 amended: a lookup failure for one name aborts the batch at that
name; the names before it are attempted and the names after it are not. -/
theorem claim_C2_amended_batch_aborts (db db1 : Database)
    (pre rest : List String) (n : String)
    (h1 : uninstallBatch db pre = (pre, true, db1))
    (h2 : dbUninstall db1 n = none) :
    uninstallBatch db (pre ++ n :: rest) = (pre ++ [n], false, db1) := by
  induction pre generalizing db with
  | nil =>
    have hdb : db = db1 := congrArg (fun x => x.2.2) h1
    subst hdb
    simp [uninstallBatch, h2]
  | cons p ps ih =>
    cases hu : dbUninstall db p with
    | none =>
      rw [uninstallBatch, hu] at h1
      exact absurd (congrArg (fun x => x.2.1) h1) (by simp)
    | some db2 =>
      rw [uninstallBatch, hu] at h1
      have htail : uninstallBatch db2 ps = (ps, true, db1) := by
        have ha : (uninstallBatch db2 ps).1 = ps := by
          have := congrArg (fun x => x.1) h1
          simpa using this
        have hb : (uninstallBatch db2 ps).2 = (true, db1) := by
          have := congrArg (fun x => x.2) h1
          simpa using this
        calc uninstallBatch db2 ps
            = ((uninstallBatch db2 ps).1, (uninstallBatch db2 ps).2) := rfl
          _ = (ps, true, db1) := by rw [ha, hb]
      have := ih db2 htail
      simp only [List.cons_append, uninstallBatch, hu, List.append_eq, this]

/-- C2 amended witness: against a database recording only x, the batch
x then a then b uninstalls x, fails at a, and never attempts b. -/
theorem claim_C2_amended_batch_aborts_witness :
    uninstallBatch ⟨[("x", recNotify)]⟩ ["x", "a", "b"] =
      (["x", "a"], false, ⟨[]⟩) := by
  have h := claim_C2_amended_batch_aborts ⟨[("x", recNotify)]⟩ ⟨[]⟩
    ["x"] ["b"] "a" (by decide) (by decide)
  revert h
  decide

/-- C1: with force unset and a declared host version whose major.minor
differs from the running host version, install fails at the
compatibility check with no event at all: nothing is extracted, the
database file is never written and the durable state stays untouched. -/
theorem claim_C1_incompatible_no_mutation (env : InstallEnv) (wv : RudderVersion)
    (hf : env.force = false)
    (hw : env.webappVersion = some wv)
    (hm : env.rpkg.metadata.version.rudderVersion.major ≠ wv.major ∨
          env.rpkg.metadata.version.rudderVersion.minor ≠ wv.minor) :
    install env = (Res.err, []) ∧
    (applyEffects (install env).2).writtenDb = none ∧
    (applyEffects (install env).2).unpackedDirs = [] := by
  have hc : env.rpkg.metadata.version.rudderVersion.isCompatible wv = false := by
    unfold RudderVersion.isCompatible
    rcases hm with h | h
    · simp [beq_eq_false_iff_ne.mpr h]
    · simp [beq_eq_false_iff_ne.mpr h]
  have hmain : install env = (Res.err, []) := by
    simp [install, hw, hf, hc]
  refine ⟨hmain, ?_, ?_⟩ <;> rw [hmain] <;> rfl

/-- C1 witness: the notify plugin, built for 8.0, against a running host
at 7.2.5 without force: the install errs and leaves no trace. -/
theorem claim_C1_incompatible_no_mutation_witness :
    install envIncompatible = (Res.err, []) := by
  have h := claim_C1_incompatible_no_mutation envIncompatible
    ⟨7, 2, 5, RudderVersionMode.final⟩ rfl rfl (by decide)
  exact h.1

/-- C6 counterexample: with the files.txz bundle of the notify example
mapped to /opt/rudder/share, each relative tar path is joined under that
destination, so the computed absolute list is /opt/rudder/share/share/
and so on, not the /opt/rudder/share/ list stated by the claim. -/
theorem claim_C6_counterexample :
    getArchiveInstalledFiles notifyRpkgShare =
      Res.ok ["/opt/rudder/share/share/", "/opt/rudder/share/share/python/",
        "/opt/rudder/share/share/python/glpi.py",
        "/opt/rudder/share/share/python/notifyd.py"] ∧
    getArchiveInstalledFiles notifyRpkgShare ≠
      Res.ok ["/opt/rudder/share/", "/opt/rudder/share/python/",
        "/opt/rudder/share/python/glpi.py",
        "/opt/rudder/share/python/notifyd.py"] := by
  decide

/-- C6 amended: with the files.txz bundle mapped to /opt/rudder, the
absolute installed file list is exactly the four stated paths in tar
order, and the database step of install records exactly that list in
the Installed Plugin Record written for the plugin name. -/
theorem claim_C6_amended_installed_files (env : InstallEnv) (db : Database)
    (h1 : env.rpkg = notifyRpkg)
    (h2 : env.dbRead = some db)
    (h3 : env.dbWriteOk = true) :
    getArchiveInstalledFiles notifyRpkg = Res.ok expectedNotifyFiles ∧
    installDbStep env = (Res.ok (),
      [Effect.dbWritten (dbInsert db "notify" ⟨expectedNotifyFiles, notifyMeta⟩)]) ∧
    ("notify", (⟨expectedNotifyFiles, notifyMeta⟩ : InstalledPlugin)) ∈
      (dbInsert db "notify" ⟨expectedNotifyFiles, notifyMeta⟩).plugins := by
  have hfiles : getArchiveInstalledFiles notifyRpkg = Res.ok expectedNotifyFiles := by
    decide
  refine ⟨hfiles, ?_, ?_⟩
  · have hname : notifyMeta.name = "notify" := rfl
    simp only [installDbStep, h1, h2, h3, hfiles]
    rw [show notifyRpkg.metadata = notifyMeta from rfl, hname]
    rfl
  · simp [dbInsert]

/-- C6 amended witness: running the database step on the notify plugin
against an empty database writes the record with the four paths. -/
theorem claim_C6_amended_installed_files_witness :
    installDbStep envNotifyOk = (Res.ok (),
      [Effect.dbWritten (dbInsert ⟨[]⟩ "notify"
        ⟨expectedNotifyFiles, notifyMeta⟩)]) := by
  have h := claim_C6_amended_installed_files envNotifyOk ⟨[]⟩ rfl rfl rfl
  exact h.2.1

/-- C10: for a container whose scripts bundle is named scripts.txz and
that has no entry named script.txz, the script-extraction step of
install, which looks for the literal name script.txz, is a silent no-op
performing no filesystem action, while destination resolution reserves
the name scripts.txz for the package-scripts root and the installed-file
computation excludes exactly the name scripts.txz. -/
theorem claim_C10_script_name_mismatch (r : Rpkg)
    (hno : ∀ e ∈ r.entries, e.identifier ≠ "script.txz")
    (_hyes : ∃ e ∈ r.entries, e.identifier = "scripts.txz") :
    installScriptsStep r = (Res.ok (), []) ∧
    getTxzDst r "scripts.txz" = some PACKAGES_FOLDER ∧
    "scripts.txz" ∉ (getTxzList r).filter (fun n => n ≠ "scripts.txz") := by
  refine ⟨?_, ?_, ?_⟩
  · have hf : r.entries.find? (fun e => decide (e.identifier = "script.txz")) = none := by
      rw [List.find?_eq_none]
      intro e he
      simp [hno e he]
    simp [installScriptsStep, unpackEmbeddedTxz, hf]
  · simp [getTxzDst]
  · simp [List.mem_filter]

/-- C10 witness: the notify container ships its scripts bundle as
scripts.txz and has no script.txz entry, so the scripts extraction step
of install extracts nothing. -/
theorem claim_C10_script_name_mismatch_witness :
    installScriptsStep notifyRpkg = (Res.ok (), []) := by
  have h := claim_C10_script_name_mismatch notifyRpkg (by decide) (by decide)
  exact h.1

/-- An unpack event anywhere in a run survives into the durable state:
no later event removes it. -/
theorem unpacked_preserved (t : List Effect) (w : World) (n d : String)
    (h : (n, d) ∈ w.unpackedDirs ∨ Effect.unpacked n d ∈ t) :
    (n, d) ∈ (t.foldl applyEffect w).unpackedDirs := by
  induction t generalizing w with
  | nil =>
    rcases h with h | h
    · exact h
    · simp at h
  | cons e rest ih =>
    rcases h with h | h
    · apply ih
      left
      cases e <;> simp [applyEffect, h]
    · rcases List.mem_cons.mp h with h | h
      · subst h
        apply ih
        left
        simp [applyEffect]
      · exact ih _ (Or.inr h)

/-- C9: a failure after the dependency check returns an error to the
caller and rolls nothing back. First part: when every step up to and
including the database write succeeds and the postinst script exists
but fails to spawn, install errs, yet its event list ends with the
database write, the durable database content is exactly the written
database and the record for the plugin name is in it. Second part: when
the second of two content bundles fails to extract after the first was
unpacked, install errs, yet the first bundle remains recorded as
unpacked in the durable state. Third part: in every run, successful or
failed, every bundle that was unpacked stays present in the durable
state reached at the end of the run. -/
theorem claim_C9_no_rollback :
    (∀ (env : InstallEnv) (wv : RudderVersion) (t3 t5 : List Effect)
        (db : Database) (fl : List String),
      env.webappVersion = some wv →
      env.force = true →
      installScriptsStep env.rpkg = (Res.ok (), t3) →
      env.script.scriptExists "preinst" = false →
      unpackContentList env.rpkg env.rpkg.metadata.content = (Res.ok (), t5) →
      env.dbRead = some db →
      getArchiveInstalledFiles env.rpkg = Res.ok fl →
      env.dbWriteOk = true →
      env.script.scriptExists "postinst" = true →
      env.script.spawnOk "postinst" = false →
      install env = (Res.err, t3 ++ t5 ++
        [Effect.dbWritten (dbInsert db env.rpkg.metadata.name ⟨fl, env.rpkg.metadata⟩)]) ∧
      (applyEffects (install env).2).writtenDb =
        some (dbInsert db env.rpkg.metadata.name ⟨fl, env.rpkg.metadata⟩) ∧
      (env.rpkg.metadata.name, (⟨fl, env.rpkg.metadata⟩ : InstalledPlugin)) ∈
        (dbInsert db env.rpkg.metadata.name ⟨fl, env.rpkg.metadata⟩).plugins) ∧
    (∀ (env : InstallEnv) (wv : RudderVersion) (n1 d1 n2 d2 dst1 dst2 : String),
      env.webappVersion = some wv →
      env.force = true →
      installScriptsStep env.rpkg = (Res.ok (), []) →
      env.script.scriptExists "preinst" = false →
      env.rpkg.metadata.content = [(n1, d1), (n2, d2)] →
      getTxzDst env.rpkg n1 = some dst1 →
      unpackEmbeddedTxz env.rpkg n1 dst1 =
        (Res.ok (), [Effect.mkdirParent dst1, Effect.unpacked n1 dst1]) →
      getTxzDst env.rpkg n2 = some dst2 →
      unpackEmbeddedTxz env.rpkg n2 dst2 = (Res.err, [Effect.mkdirParent dst2]) →
      install env = (Res.err,
        [Effect.mkdirParent dst1, Effect.unpacked n1 dst1, Effect.mkdirParent dst2]) ∧
      (n1, dst1) ∈ (applyEffects (install env).2).unpackedDirs) ∧
    (∀ (env : InstallEnv) (n d : String),
      Effect.unpacked n d ∈ (install env).2 →
      (n, d) ∈ (applyEffects (install env).2).unpackedDirs) := by
  refine ⟨?_, ?_, ?_⟩
  · intro env wv t3 t5 db fl h1 h2 h3 h4 h5 h6 h7 h8 h9 h10
    have hchecks : install env = installAfterChecks env := by
      simp only [install, h1, h2]
      cases env.rpkg.metadata.depends <;> simp
    have hpre : runPackageScript env.rpkg env.script PackageScript.preinst
        PackageScriptArg.install = (Res.ok (), []) := by
      simp [runPackageScript, PackageScript.name, h4]
    have hdbstep : installDbStep env = (Res.ok (),
        [Effect.dbWritten (dbInsert db env.rpkg.metadata.name ⟨fl, env.rpkg.metadata⟩)]) := by
      simp [installDbStep, h6, h7, h8]
    have hpost : runPackageScript env.rpkg env.script PackageScript.postinst
        PackageScriptArg.install = (Res.err, []) := by
      simp [runPackageScript, PackageScript.name, h9, h10]
    have hmain : install env = (Res.err, t3 ++ t5 ++
        [Effect.dbWritten (dbInsert db env.rpkg.metadata.name ⟨fl, env.rpkg.metadata⟩)]) := by
      rw [hchecks]
      unfold installAfterChecks
      rw [h3, withEff_ok, hpre, withEff_ok, h5, withEff_ok, hdbstep, withEff_ok,
        hpost, withEff_err]
      simp
    refine ⟨hmain, ?_, ?_⟩
    · rw [hmain]
      rw [show t3 ++ t5 ++
        [Effect.dbWritten (dbInsert db env.rpkg.metadata.name ⟨fl, env.rpkg.metadata⟩)] =
        (t3 ++ t5) ++
        [Effect.dbWritten (dbInsert db env.rpkg.metadata.name ⟨fl, env.rpkg.metadata⟩)] by
          simp]
      exact applyEffects_last_dbWritten _ _
    · simp [dbInsert]
  · intro env wv n1 d1 n2 d2 dst1 dst2 h1 h2 h3 h4 h5 h6 h7 h8 h9
    have hchecks : install env = installAfterChecks env := by
      simp only [install, h1, h2]
      cases env.rpkg.metadata.depends <;> simp
    have hpre : runPackageScript env.rpkg env.script PackageScript.preinst
        PackageScriptArg.install = (Res.ok (), []) := by
      simp [runPackageScript, PackageScript.name, h4]
    have hcontent : unpackContentList env.rpkg env.rpkg.metadata.content =
        (Res.err, [Effect.mkdirParent dst1, Effect.unpacked n1 dst1,
          Effect.mkdirParent dst2]) := by
      rw [h5]
      unfold unpackContentList
      simp only [h6]
      rw [h7, withEff_ok]
      unfold unpackContentList
      simp only [h8]
      rw [h9, withEff_err]
      rfl
    have hmain : install env = (Res.err,
        [Effect.mkdirParent dst1, Effect.unpacked n1 dst1, Effect.mkdirParent dst2]) := by
      rw [hchecks]
      unfold installAfterChecks
      rw [h3, withEff_ok, hpre, withEff_ok, hcontent, withEff_err]
      rfl
    refine ⟨hmain, ?_⟩
    rw [hmain]
    simp [applyEffects, applyEffect]
  · intro env n d h
    exact unpacked_preserved (install env).2 ⟨[], none⟩ n d (Or.inr h)

/-- C9 witness: both failure shapes at concrete runs. With the minimal
plugin and a postinst that exists but does not spawn, install errs and
the database write survives in the durable state; with the two-bundle
plugin, install errs after the first bundle and that bundle stays
unpacked. -/
theorem claim_C9_no_rollback_witness :
    (install envPostinstSpawnFails = (Res.err,
      [Effect.dbWritten (dbInsert ⟨[]⟩ "p" ⟨[], metaEmpty⟩)]) ∧
     (applyEffects (install envPostinstSpawnFails).2).writtenDb =
       some (dbInsert ⟨[]⟩ "p" ⟨[], metaEmpty⟩)) ∧
    (install envBundleFails = (Res.err,
      [Effect.mkdirParent "/da", Effect.unpacked "a.txz" "/da",
       Effect.mkdirParent "/db"]) ∧
     ("a.txz", "/da") ∈ (applyEffects (install envBundleFails).2).unpackedDirs) := by
  constructor
  · have h := claim_C9_no_rollback.1 envPostinstSpawnFails
      ⟨8, 0, 0, RudderVersionMode.final⟩ [] [] ⟨[]⟩ []
      rfl rfl (by decide) rfl (by decide) rfl (by decide) rfl rfl rfl
    revert h
    decide
  · have h := claim_C9_no_rollback.2.1 envBundleFails
      ⟨8, 0, 0, RudderVersionMode.final⟩ "a.txz" "/da" "b.txz" "/db" "/da" "/db"
      rfl rfl (by decide) rfl rfl (by decide) (by decide) (by decide) (by decide)
    revert h
    decide

/-- A maximal digit run followed by a non-digit boundary splits cleanly
under takeWhile and dropWhile. -/
theorem digits_split (d s : List Char)
    (hd : ∀ c ∈ d, c.isDigit = true)
    (hs : s = [] ∨ ∃ c t, s = c :: t ∧ c.isDigit = false) :
    (d ++ s).takeWhile Char.isDigit = d ∧ (d ++ s).dropWhile Char.isDigit = s := by
  induction d with
  | nil =>
    rcases hs with rfl | ⟨c, t, rfl, hc⟩
    · simp
    · simp [List.takeWhile_cons, List.dropWhile_cons, hc]
  | cons a as ih =>
    have ha := hd a (by simp)
    have ih2 := ih fun c hc => hd c (by simp [hc])
    simp [List.takeWhile_cons, List.dropWhile_cons, ha, ih2.1, ih2.2]

/-- The triple-and-mode regex of RudderVersion::from_str decomposes a
string built from three digit runs, dots, and a suffix not starting
with a digit (or empty) into exactly those parts. -/
theorem splitVersion_decompose (d1 d2 d3 s : List Char)
    (h1 : d1 ≠ []) (ha1 : ∀ c ∈ d1, c.isDigit = true)
    (h2 : d2 ≠ []) (ha2 : ∀ c ∈ d2, c.isDigit = true)
    (h3 : d3 ≠ []) (ha3 : ∀ c ∈ d3, c.isDigit = true)
    (hsd : s = [] ∨ ∃ c t, s = c :: t ∧ c.isDigit = false)
    (hnl : s.contains '\n' = false) :
    splitVersion (d1 ++ '.' :: (d2 ++ '.' :: (d3 ++ s))) = some (d1, d2, d3, s) := by
  have hw1 := digits_split d1 ('.' :: (d2 ++ '.' :: (d3 ++ s))) ha1
    (Or.inr ⟨'.', _, rfl, by decide⟩)
  have hw2 := digits_split d2 ('.' :: (d3 ++ s)) ha2 (Or.inr ⟨'.', _, rfl, by decide⟩)
  have hw3 := digits_split d3 s ha3 hsd
  have h1e : d1.isEmpty = false := by cases d1 with
    | nil => exact absurd rfl h1
    | cons a as => rfl
  have h2e : d2.isEmpty = false := by cases d2 with
    | nil => exact absurd rfl h2
    | cons a as => rfl
  have h3e : d3.isEmpty = false := by cases d3 with
    | nil => exact absurd rfl h3
    | cons a as => rfl
  simp only [splitVersion, hw1.1, hw1.2, h1e, hw2.1, hw2.2, h2e, hw3.1, hw3.2,
    h3e, hnl, Bool.false_eq_true, if_false]

/-- A marker regex test succeeds exactly when the string starts with
the marker followed by a digit. -/
theorem tryMode_isSome (marker : String) (s : List Char) :
    (tryMode marker s).isSome = startsWithMarkerNum marker s := by
  unfold tryMode startsWithMarkerNum
  cases hd : dropPre marker.toList s with
  | none => rfl
  | some r =>
    cases r with
    | nil => rfl
    | cons c t =>
      cases hc : c.isDigit <;>
        simp [List.takeWhile_cons, hc]

/-- C4 amended, in two parts. First: parsing a host-version string of
the shape digit run, dot, digit run, dot, digit run, suffix (the suffix
empty or starting with any non-digit, no newline) with components under
the u32 bound decomposes as the components plus the parsed suffix, so
the parsed major, minor and patch round-trip and the whole parse fails
or aborts exactly as the suffix parse does. Second, for every suffix
string whatsoever: the suffix parse fails exactly when the suffix does
not begin with one of the four recognized marker forms, trailing
characters after the ordinal being accepted. -/
theorem claim_C4_amended_version_grammar :
    (∀ (d1 d2 d3 s : List Char),
      d1 ≠ [] → (∀ c ∈ d1, c.isDigit = true) → natOfDigits d1 < u32Bound →
      d2 ≠ [] → (∀ c ∈ d2, c.isDigit = true) → natOfDigits d2 < u32Bound →
      d3 ≠ [] → (∀ c ∈ d3, c.isDigit = true) → natOfDigits d3 < u32Bound →
      (s = [] ∨ ∃ c t, s = c :: t ∧ c.isDigit = false) →
      s.contains '\n' = false →
      rudderVersionFromStr (d1 ++ '.' :: (d2 ++ '.' :: (d3 ++ s))) =
        resWithComponents (natOfDigits d1) (natOfDigits d2) (natOfDigits d3)
          (rudderVersionModeFromStr s)) ∧
    (∀ s : List Char,
      rudderVersionModeFromStr s = Res.err ↔ specSuffixRecognized s = false) := by
  constructor
  · intro d1 d2 d3 s h1 ha1 hb1 h2 ha2 hb2 h3 ha3 hb3 hsd hnl
    have hsplit := splitVersion_decompose d1 d2 d3 s h1 ha1 h2 ha2 h3 ha3 hsd hnl
    have h1e : d1.isEmpty = false := by cases d1 with
      | nil => exact absurd rfl h1
      | cons a as => rfl
    have h2e : d2.isEmpty = false := by cases d2 with
      | nil => exact absurd rfl h2
      | cons a as => rfl
    have h3e : d3.isEmpty = false := by cases d3 with
      | nil => exact absurd rfl h3
      | cons a as => rfl
    have hp1 : parseU32 d1 = some (natOfDigits d1) := by simp [parseU32, h1e, hb1]
    have hp2 : parseU32 d2 = some (natOfDigits d2) := by simp [parseU32, h2e, hb2]
    have hp3 : parseU32 d3 = some (natOfDigits d3) := by simp [parseU32, h3e, hb3]
    simp only [rudderVersionFromStr, hsplit, hp1, hp2, hp3]
    cases rudderVersionModeFromStr s <;> rfl
  · intro s
    have e1 : startsWithMarkerNum "~alpha" s = (tryMode "~alpha" s).isSome :=
      (tryMode_isSome "~alpha" s).symm
    have e2 : startsWithMarkerNum "~beta" s = (tryMode "~beta" s).isSome :=
      (tryMode_isSome "~beta" s).symm
    have e3 : startsWithMarkerNum "~rc" s = (tryMode "~rc" s).isSome :=
      (tryMode_isSome "~rc" s).symm
    have e4 : startsWithMarkerNum "~git" s = (tryMode "~git" s).isSome :=
      (tryMode_isSome "~git" s).symm
    unfold rudderVersionModeFromStr specSuffixRecognized
    rw [e1, e2, e3, e4]
    cases hse : s.isEmpty with
    | true => simp
    | false =>
      cases ht1 : tryMode "~alpha" s with
      | some ds =>
        constructor
        · intro hcontr
          by_cases hbnd : natOfDigits ds < u32Bound <;> simp [hbnd] at hcontr
        · intro hcontr
          simp at hcontr
      | none =>
        cases ht2 : tryMode "~beta" s with
        | some ds =>
          constructor
          · intro hcontr
            by_cases hbnd : natOfDigits ds < u32Bound <;> simp [hbnd] at hcontr
          · intro hcontr
            simp at hcontr
        | none =>
          cases ht3 : tryMode "~rc" s with
          | some ds =>
            constructor
            · intro hcontr
              by_cases hbnd : natOfDigits ds < u32Bound <;> simp [hbnd] at hcontr
            · intro hcontr
              simp at hcontr
          | none =>
            cases ht4 : tryMode "~git" s with
            | some ds => simp
            | none => simp

/-- C4 amended witness: the string 10.2.3~rc4xyz parses as 10.2.3 in rc
mode with ordinal 4, the trailing characters after the ordinal ignored,
while 7.0.0-alpha2, whose suffix does not begin with a recognized
marker form, fails with an error. -/
theorem claim_C4_amended_version_grammar_witness :
    rudderVersionFromStr ("10.2.3~rc4xyz".toList) =
      Res.ok ⟨10, 2, 3, RudderVersionMode.rc 4⟩ ∧
    rudderVersionFromStr ("7.0.0-alpha2".toList) = Res.err := by
  constructor
  · have h := claim_C4_amended_version_grammar.1 ['1', '0'] ['2'] ['3']
      ("~rc4xyz".toList) (by decide) (by decide) (by decide) (by decide)
      (by decide) (by decide) (by decide) (by decide) (by decide)
      (Or.inr ⟨'~', "rc4xyz".toList, rfl, by decide⟩) (by decide)
    revert h
    decide
  · have h := claim_C4_amended_version_grammar.1 ['7'] ['0'] ['0']
      ("-alpha2".toList) (by decide) (by decide) (by decide) (by decide)
      (by decide) (by decide) (by decide) (by decide) (by decide)
      (Or.inr ⟨'-', "alpha2".toList, rfl, by decide⟩) (by decide)
    have herr := (claim_C4_amended_version_grammar.2 ("-alpha2".toList)).mpr (by decide)
    revert h herr
    decide

/-- C4 counterexample: the suffix tilde-alpha-1-bang is not one of the
recognized forms of the claim, yet parsing succeeds, because the suffix
regexes are anchored only at the start; and two strings of the claimed
successful shape fail: a major component of 4294967296 overflows u32
and errs, and an alpha ordinal of 4294967296 aborts in the unwrap. -/
theorem claim_C4_counterexample :
    specExactSuffixForm ("~alpha1!".toList) = false ∧
    rudderVersionFromStr ("1.2.3~alpha1!".toList) =
      Res.ok ⟨1, 2, 3, RudderVersionMode.alpha 1⟩ ∧
    specExactSuffixForm [] = true ∧
    rudderVersionFromStr ("4294967296.0.0".toList) = Res.err ∧
    specExactSuffixForm ("~alpha4294967296".toList) = true ∧
    rudderVersionFromStr ("1.2.3~alpha4294967296".toList) = Res.panicked := by
  decide

end RudderPackage
